import Mathlib

/-!
Shallow embedding of the karyotype parsing-and-scoring engine of
`My_expert_karyo_functions.py` (functions `get_chromosomes`,
`parse_caryotype`, the anomaly predicates, `type_anomalie`,
`normalize_anomaly`, `detect_implicit_anomalies`, `calcul_scores`,
`analyser_formule`), together with theorems settling the claims about it.

Python strings are modelled as `List Char` (`Str`); Python dicts that the
code builds with `setdefault`/assignment are modelled as association lists
in key-insertion order, which is exactly the observable iteration order of
a Python dict; `collections.Counter l` is modelled as the list of the
distinct elements of `l` in first-occurrence order paired with their
number of occurrences in `l`, which is exactly the observable content and
iteration order of the Python object.  The `pandas.DataFrame` of score
rows is modelled as a `List Row`.  The three operations inside the
tokenizer's per-clone `try` block that can raise (`parts[0]` on an empty
list, `int("")`, and reading the possibly-unbound variable `pl`) are
modelled with `Except`, and the surrounding `try ... except: pass` as the
pattern match that discards the error.
-/

set_option maxRecDepth 8000

namespace Karyo

/-- Python strings, as lists of characters. -/
abbrev Str := List Char

/-- Shorthand turning a Lean string literal into the `List Char` model. -/
def lit (s : String) : Str := s.toList

/-- The characters Python's `\s` / `str.strip()` treat as whitespace
(ASCII range; ISCN formulas contain no exotic Unicode whitespace). -/
def isPySpace (c : Char) : Bool :=
  c == ' ' || c == '\t' || c == '\n' || c == '\r' || c == '\x0b' || c == '\x0c'

/-- Model of `re.sub(r"\s+", "", s)`: delete every whitespace character. -/
def removeWhitespace (l : Str) : Str := l.filter (fun c => !isPySpace c)

/-- Model of `str.strip()`: drop leading and trailing whitespace. -/
def pyStrip (l : Str) : Str :=
  ((l.dropWhile isPySpace).reverse.dropWhile isPySpace).reverse

/-- Model of `str.strip('.')`: drop every leading and trailing dot. -/
def stripDots (l : Str) : Str :=
  ((l.dropWhile (fun c => c == '.')).reverse.dropWhile (fun c => c == '.')).reverse

/-- Model of `str.split(sep)` for a one-character separator: keeps empty
pieces, and splitting the empty string yields one empty piece. -/
def splitOnCh (sep : Char) : Str → List Str
  | [] => [[]]
  | c :: cs =>
    let r := splitOnCh sep cs
    if c == sep then [] :: r
    else
      match r with
      | h :: t => (c :: h) :: t
      | [] => [[c]]

/-- Model of `re.sub(r"\D", "", s)`: keep only the decimal digits. -/
def digitsOf (l : Str) : Str := l.filter (fun c => c.isDigit)

/-- Value of `int(s)` on a nonempty string of decimal digits. -/
def natOfDigits (l : Str) : Nat :=
  l.foldl (fun n c => n * 10 + (c.toNat - '0'.toNat)) 0

/-- Suffix after the first `']'`, or `none` when there is no `']'`. -/
def afterClose : Str → Option Str
  | [] => none
  | c :: cs => if c == ']' then some cs else afterClose cs

/-- Model of `re.sub(r"\[.*?\]", "", clone)`, fuelled to stay structural:
scanning left to right, each `'['` that still has a `']'` after it is
deleted together with everything up to and including the nearest `']'`
(the non-greedy match); a `'['` with no later `']'` matches nothing, and
then no later position can start a match either.  Every recursive call
consumes at least one character, so fuel `length + 1` is never
exhausted. -/
def removeBracketsF : Nat → Str → Str
  | 0, cs => cs
  | _ + 1, [] => []
  | fuel + 1, c :: cs =>
    if c == '[' then
      match afterClose cs with
      | some rest => removeBracketsF fuel rest
      | none => c :: cs
    else c :: removeBracketsF fuel cs

def removeBrackets (l : Str) : Str := removeBracketsF (l.length + 1) l

/-- Fields of one clone:
`[p.strip().strip('.') for p in clone.split(',') if p.strip()]`. -/
def cloneParts (clone : Str) : List Str :=
  ((splitOnCh ',' clone).filter (fun p => !(pyStrip p).isEmpty)).map
    (fun p => stripDots (pyStrip p))

/-- Association-list lookup (Python `dict.get`): value of the first entry
whose key matches. -/
def lookupBy {α : Type} (m : List (Str × α)) (k : Str) : Option α :=
  (m.find? (fun p => p.1 == k)).map (fun p => p.2)

/-- Model of `d.setdefault(k, []).append(v)` on a dict of lists: append to
the existing entry, or add a new entry at the end (Python dicts iterate
in key-insertion order). -/
def mapAppend {κ : Type} [BEq κ] (m : List (κ × List Str)) (k : κ) (v : Str) :
    List (κ × List Str) :=
  if m.any (fun p => p.1 == k) then
    m.map (fun p => if p.1 == k then (p.1, p.2 ++ [v]) else p)
  else m ++ [(k, [v])]

/-- The clone-membership map `{anomaly ↦ clone labels}`. -/
abbrev CloneMap := List (Str × List Str)

/-- Label `f"clone{idx}"`. -/
def cloneLabel (idx : Nat) : Str := lit "clone" ++ (toString idx).toList

/-- The body of the tokenizer's per-clone `try` block.  Given the clone's
field list and the current binding of the function-local variable `pl`
(`none` while unbound), it returns the new binding together with the
pseudo-anomaly appended by `anomalies.append(pl)`, or the exception the
block raises: `IndexError` from `parts[0]`, `ValueError` from `int("")`
when the first field contains no digit, and `NameError` from reading `pl`
when the ploidy is none of 46/92/69 and `pl` was never assigned.  Note
that for such a ploidy with `pl` already bound by an earlier clone, the
stale value is appended again. -/
def ploidyBlock (parts : List Str) (pl : Option Str) :
    Except Str (Option Str × Option Str) :=
  match parts with
  | [] => Except.error (lit "IndexError")
  | p0 :: _ =>
    let ds := digitsOf p0
    if ds.isEmpty then Except.error (lit "ValueError")
    else
      let total := natOfDigits ds
      if total == 46 then Except.ok (pl, none)
      else if total == 92 then Except.ok (some (lit "Tetraploidy"), some (lit "Tetraploidy"))
      else if total == 69 then Except.ok (some (lit "Triploidy"), some (lit "Triploidy"))
      else
        match pl with
        | some p => Except.ok (pl, some p)
        | none => Except.error (lit "NameError")

/-- State threaded through the clone loop of `parse_caryotype`. -/
structure PState where
  pl : Option Str
  anomalies : List Str
  cloneMap : CloneMap

/-- One iteration of the clone loop: the ploidy `try` block (its `Except`
result pattern-matched, so an error is `pass`ed over), then the
structural anomalies `parts[2:]` appended to the flat list and to the
clone-membership map. -/
def cloneStep (st : PState) (idx : Nat) (clone : Str) : PState :=
  let parts := cloneParts clone
  let st1 :=
    match ploidyBlock parts st.pl with
    | Except.ok (pl', none) => { st with pl := pl' }
    | Except.ok (pl', some an) =>
        { pl := pl', anomalies := st.anomalies ++ [an],
          cloneMap := mapAppend st.cloneMap an (cloneLabel idx) }
    | Except.error _ => st
  let toks := parts.drop 2
  { st1 with
    anomalies := st1.anomalies ++ toks,
    cloneMap := toks.foldl (fun m an => mapAppend m an (cloneLabel idx)) st1.cloneMap }

def parseLoop : List Str → Nat → PState → PState
  | [], _, st => st
  | c :: cs, idx, st => parseLoop cs (idx + 1) (cloneStep st idx c)

/-- Model of `parse_caryotype`: remove all whitespace, split on `/`,
strip the bracketed cell counts, and run the clone loop with 1-based
indices, returning the flat anomaly list and the clone map. -/
def parse_caryotype (chaine : Str) : List Str × CloneMap :=
  let clean := removeWhitespace chaine
  let clones := (splitOnCh '/' clean).map removeBrackets
  let fin := parseLoop clones 1 { pl := none, anomalies := [], cloneMap := [] }
  (fin.anomalies, fin.cloneMap)

/-! ### Chromosome reference extractor -/

/-- The keyword alternation of the `get_chromosomes` regex, in the
pattern's order. -/
def kwStrs : List Str :=
  [lit "der", lit "dic", lit "del", lit "dup", lit "ins", lit "t",
   lit "i", lit "ider", lit "idic", lit "r"]

/-- Class `[0-9;]`. -/
def isNumSemi (c : Char) : Bool := c.isDigit || c == ';'

/-- One alternative of `(?:der|dic|del|dup|ins|t|i|ider|idic|r)\(([0-9;]+)`
tried at the current position: the keyword, an opening parenthesis, and a
nonempty greedy run of `[0-9;]`, whose capture is returned. -/
def tryKw (k : Str) (cs : Str) : Option Str :=
  if (k ++ ['(']).isPrefixOf cs then
    let cap := (cs.drop (k.length + 1)).takeWhile isNumSemi
    if cap.isEmpty then none else some cap
  else none

def tryAnyKw : List Str → Str → Option Str
  | [], _ => none
  | k :: ks, cs =>
    match tryKw k cs with
    | some cap => some cap
    | none => tryAnyKw ks cs

/-- Captures of the `get_chromosomes` pattern collected at every position
of the token.  `re.finditer` scans non-overlapping matches, resuming
after each match; scanning every position instead can only re-find a
match inside a previous span (e.g. the `der(` inside `ider(`, or the `r(`
inside `der(`), and any such inner match shares the same parenthesis, so
it captures the same group — the resulting set of numbers is identical,
and only the set is ever used. -/
def chromScan : Str → List Str
  | [] => []
  | c :: cs =>
    (match tryAnyKw kwStrs (c :: cs) with
     | some cap => splitOnCh ';' cap
     | none => []) ++ chromScan cs

/-- First-occurrence deduplication; models the observable content of a
Python `set`/`dict` built by repeated insertion (iteration order of the
result is never observable where a `set` is modelled). -/
def dedupFirst (l : List Str) : List Str :=
  l.foldl (fun acc x => if x ∈ acc then acc else acc ++ [x]) []

/-- Model of `get_chromosomes`: the set of chromosome numbers referenced
by the token, as a duplicate-free list. -/
def get_chromosomes (anom : Str) : List Str := dedupFirst (chromScan anom)

/-! ### Anomaly predicates -/

/-- Python's `needle in hay` substring test. -/
def containsSub (hay needle : Str) : Bool :=
  match hay with
  | [] => needle.isEmpty
  | _ :: cs => needle.isPrefixOf hay || containsSub cs needle

/-- The `$` anchor also matches just before one final newline. -/
def dropFinalNl (l : Str) : Str :=
  match l.getLast? with
  | some c => if c == '\n' then l.dropLast else l
  | none => l

/-- One-or-more `;\d+` groups (`(?:;\d+)+` after the first digit run);
returns the remainder after the last group.  Greedy matching is
deterministic here: taking fewer groups leaves a `;` where the following
`\)` is expected, so it can never rescue a failed match.  Every recursive
call consumes at least two characters, so fuel `length + 1` is never
exhausted. -/
def semiRunsF : Nat → Str → Option Str
  | 0, _ => none
  | fuel + 1, cs =>
    match cs with
    | ';' :: cs' =>
      (match cs'.span (fun c => c.isDigit) with
       | ([], _) => none
       | (_ :: _, rest) =>
         match semiRunsF fuel rest with
         | some r => some r
         | none => some rest)
    | _ => none

/-- Model of `re.match(r'^KW\(\d+(?:;\d+)+\)\(.+\)$', anom)` for a keyword
`KW` (`t` or `ins`): the keyword, a parenthesised list of two or more
digit runs separated by `;`, then `\(`, then a nonempty newline-free
body, then `\)` at the end of the string. -/
def balShape (kw : Str) (anom : Str) : Bool :=
  let l := dropFinalNl anom
  if (kw ++ ['(']).isPrefixOf l then
    let rest := l.drop (kw.length + 1)
    match rest.span (fun c => c.isDigit) with
    | ([], _) => false
    | (_ :: _, r1) =>
      match semiRunsF (r1.length + 1) r1 with
      | none => false
      | some r2 =>
        match r2 with
        | ')' :: '(' :: mid =>
          (match mid.getLast? with
           | some ch =>
             ch == ')' && decide (2 ≤ mid.length) &&
               mid.dropLast.all (fun c => !(c == '\n'))
           | none => false)
        | _ => false
  else false

/-- Model of `is_balanced_translocation`. -/
def is_balanced_translocation (anom : Str) : Bool :=
  balShape (lit "t") anom && !containsSub anom (lit "der") &&
    !containsSub anom (lit "+") && !containsSub anom (lit "-")

/-- Model of `is_unbalanced_translocation`. -/
def is_unbalanced_translocation (anom : Str) : Bool :=
  ((containsSub anom (lit "der") || containsSub anom (lit "dic")) &&
      containsSub anom (lit "t(")) ||
    (containsSub anom (lit "t(") && !is_balanced_translocation anom)

/-- Model of `is_balanced_insertion`. -/
def is_balanced_insertion (anom : Str) : Bool :=
  balShape (lit "ins") anom && !containsSub anom (lit "der") &&
    !containsSub anom (lit "+") && !containsSub anom (lit "-")

/-- Model of `is_single_chr_deseq`. -/
def is_single_chr_deseq (anom : Str) (count : Nat) : Bool :=
  ((lit "+").isPrefixOf anom && decide (1 < count)) ||
    (lit "trp").isPrefixOf anom || (lit "ider").isPrefixOf anom

/-- Model of `is_complex_multichr_deseq`. -/
def is_complex_multichr_deseq (anom : Str) : Bool :=
  let chroms := get_chromosomes anom
  if decide (chroms.length ≤ 1) then false
  else if (lit "der").isPrefixOf anom || (lit "dic").isPrefixOf anom ||
      (lit "r(").isPrefixOf anom then true
  else if containsSub anom (lit "ins(") && !is_balanced_insertion anom then true
  else if containsSub anom (lit "t(") && !is_balanced_translocation anom then true
  else false

/-! ### Anomaly type resolver -/

/-- Model of `type_anomalie`: the sequential conditionals of the source,
in order. -/
def type_anomalie (anom : Str) : Str :=
  if is_complex_multichr_deseq anom then lit "Multichromosomique déséquilibrée"
  else if is_balanced_translocation anom then lit "Translocation équilibrée"
  else if is_unbalanced_translocation anom then lit "Translocation déséquilibrée"
  else if is_balanced_insertion anom then lit "Insertion équilibrée"
  else if anom == lit "<2n>" then lit "Ploidy"
  else if containsSub anom (lit "~") then lit "Pléiade chromosomique"
  else if anom == lit "+mar" then lit "Chromosome marqueur"
  else if containsSub anom (lit "dmin") then lit "Double minutes"
  else if (lit "hsr").isPrefixOf anom then lit "Homogeneously staining region"
  else if (lit "r(").isPrefixOf anom then lit "Anneau"
  else if (lit "der").isPrefixOf anom then lit "Chromosome dérivé"
  else if (lit "ins").isPrefixOf anom then lit "Insertion"
  else if (lit "t(").isPrefixOf anom then lit "Translocation"
  else if (lit "+").isPrefixOf anom then lit "Gain chr" ++ digitsOf anom
  else if (lit "-").isPrefixOf anom then lit "Perte chr" ++ digitsOf anom
  else if (lit "dup").isPrefixOf anom then lit "Duplication"
  else if (lit "del").isPrefixOf anom then lit "Délétion"
  else if (lit "trp").isPrefixOf anom then lit "Triplication/Quadruplication"
  else if (lit "dic").isPrefixOf anom then lit "Chromosome dicentrique"
  else if (lit "idic").isPrefixOf anom then lit "Isodicentric chromosome"
  else if (lit "ider").isPrefixOf anom then lit "Isoderivative chromosome"
  else if (lit "i(").isPrefixOf anom || containsSub anom (lit "iso") then
    lit "Isochromosome"
  else lit "Autre"

/-! ### Normalization and implicit anomaly detection -/

/-- Model of `normalize_anomaly`: `anom.lstrip('?')` strips every leading
question mark. -/
def normalize_anomaly (anom : Str) : Str := anom.dropWhile (fun c => c == '?')

/-- Dict of lists without default: `d[k]` used after a membership test. -/
def sdInsert (m : List (Str × Str)) (k v : Str) : List (Str × Str) :=
  if m.any (fun p => p.1 == k) then m else m ++ [(k, v)]

/-- `norm_to_orig`: first original spelling of each normalized anomaly
(`setdefault` keeps the first). -/
def normToOrig (anomalies : List Str) : List (Str × Str) :=
  anomalies.foldl (fun m a => sdInsert m (normalize_anomaly a) a) []

/-- Keys of `Counter(normalize_anomaly(a) for a in anomalies)` in
iteration order. -/
def normKeys (anomalies : List Str) : List Str :=
  dedupFirst (anomalies.map normalize_anomaly)

/-- Attempt at `t\((\d+);(\d+)\)` exactly at the current position:
`t(`, a digit run, `;`, a digit run, `)`. -/
def tPairAt (cs : Str) : Option (Str × Str) :=
  match cs with
  | 't' :: '(' :: rest =>
    (match rest.span (fun c => c.isDigit) with
     | ([], _) => none
     | (a, r1) =>
       match r1 with
       | ';' :: r2 =>
         (match r2.span (fun c => c.isDigit) with
          | ([], _) => none
          | (b, r3) =>
            match r3 with
            | ')' :: _ => some (a, b)
            | _ => none)
       | _ => none)
  | _ => none

/-- Rightmost match of `t\((\d+);(\d+)\)` in the string: the greedy `.*`
preceding it in the rule-A pattern backtracks from the end, so the last
matching position wins.  (`.` does not cross a newline, but every token
reaching this code comes out of the whitespace-stripped formula, so no
newline can occur.) -/
def lastTPair : Str → Option (Str × Str)
  | [] => none
  | c :: cs =>
    match lastTPair cs with
    | some r => some r
    | none => tPairAt (c :: cs)

/-- The anchored head `(?:der|dic)\((\d+)\)` of the rule-A pattern; the
captured chromosome is discarded by the caller (`_, A, B = m.groups()`),
so only the remainder after `\)` is returned. -/
def ruleAHead (an : Str) : Option Str :=
  let tryOne : Str → Option Str := fun kw =>
    if (kw ++ ['(']).isPrefixOf an then
      let rest := an.drop (kw.length + 1)
      match rest.span (fun c => c.isDigit) with
      | ([], _) => none
      | (_, r1) =>
        match r1 with
        | ')' :: r2 => some r2
        | _ => none
    else none
  match tryOne (lit "der") with
  | some r => some r
  | none => tryOne (lit "dic")

/-- Model of `re.match(r"(?:der|dic)\((\d+)\).*t\((\d+);(\d+)\)", an)`,
returning the two captured translocation partners. -/
def ruleAMatch (an : Str) : Option (Str × Str) :=
  match ruleAHead an with
  | some rest => lastTPair rest
  | none => none

/-- Python string `<` (lexicographic by code point). -/
def strLt : Str → Str → Bool
  | [], [] => false
  | [], _ :: _ => true
  | _ :: _, [] => false
  | a :: as, b :: bs => if a == b then strLt as bs else decide (a < b)

/-- `tuple(sorted([a, b]))`. -/
def sortPair (a b : Str) : Str × Str := if strLt b a then (b, a) else (a, b)

/-- The `t_events` dict: normalized rule-A tokens grouped by the unordered
translocation pair, in discovery order. -/
def tEvents (nk : List Str) : List ((Str × Str) × List Str) :=
  nk.foldl
    (fun m an =>
      match ruleAMatch an with
      | some ab => mapAppend m (sortPair ab.1 ab.2) an
      | none => m)
    []

/-- The `implicit` dict: normalized token ↦ (reason, reference). -/
abbrev ImpMap := List (Str × (Str × Str))

/-- Dict assignment `implicit[k] = v`: overwrite in place or append. -/
def imInsert (m : ImpMap) (k : Str) (v : Str × Str) : ImpMap :=
  if m.any (fun p => p.1 == k) then
    m.map (fun p => if p.1 == k then (p.1, v) else p)
  else m ++ [(k, v)]

/-- Rule A of `detect_implicit_anomalies`: within each translocation-pair
group, if some member also contains `add`, `del` or `dup`, every other
member is implicit, with the first explicit member's original spelling as
reference.  (`norm_to_orig[explicits[0]]` cannot fail — every group member
is a normalized key — so the lookup is totalised with a default that is
never used.) -/
def ruleAImplicit (anomalies : List Str) : ImpMap :=
  let nk := normKeys anomalies
  let nto := normToOrig anomalies
  (tEvents nk).foldl
    (fun imp ev =>
      let ders := ev.2
      let explicits := ders.filter
        (fun d => containsSub d (lit "add") || containsSub d (lit "del") ||
          containsSub d (lit "dup"))
      match explicits with
      | [] => imp
      | e0 :: _ =>
        let ref := (lookupBy nto e0).getD e0
        ders.foldl
          (fun imp2 d =>
            if explicits.any (fun e => e == d) then imp2
            else imInsert imp2 d (lit "Dérivé implicite", ref))
          imp)
    []

/-- The anchored `^(?:der|dic)\(([0-9;]+)\)` head of rule B: the full
`[0-9;]` run right after the parenthesis must be followed by `)`; the
capture is split on `;`. -/
def ruleBHead (an : Str) : Option (List Str) :=
  let tryOne : Str → Option (List Str) := fun kw =>
    if (kw ++ ['(']).isPrefixOf an then
      let rest := an.drop (kw.length + 1)
      let cap := rest.takeWhile isNumSemi
      if cap.isEmpty then none
      else
        match rest.drop cap.length with
        | ')' :: _ => some (splitOnCh ';' cap)
        | _ => none
    else none
  match tryOne (lit "der") with
  | some r => some r
  | none => tryOne (lit "dic")

/-- Captures of `re.finditer(r"t\(([0-9;]+)\)", an)`: a full `[0-9;]` run
between `t(` and `)`.  Scanning every position coincides with the
non-overlapping scan because no `t` can occur inside a match span. -/
def tGroupScan : Str → List Str
  | [] => []
  | c :: cs =>
    (match c :: cs with
     | 't' :: '(' :: rest =>
       let cap := rest.takeWhile isNumSemi
       if cap.isEmpty then []
       else
         (match rest.drop cap.length with
          | ')' :: _ => [cap]
          | _ => [])
     | _ => []) ++ tGroupScan cs

/-- The `multi_der` dict of rule B: chromosome number ↦ the normalized
`der`/`dic` tokens (in discovery order) whose combined chromosome set has
more than one element. -/
def multiDer (nk : List Str) : List (Str × List Str) :=
  nk.foldl
    (fun m an =>
      if (lit "der").isPrefixOf an || (lit "dic").isPrefixOf an then
        match ruleBHead an with
        | some caps =>
          let chrs := dedupFirst (caps ++ ((tGroupScan an).map (splitOnCh ';')).flatten)
          if decide (1 < chrs.length) then
            chrs.foldl (fun m2 c => mapAppend m2 c an) m
          else m
        | none => m
      else m)
    []

/-- Rule B of `detect_implicit_anomalies`: a simple gain/loss whose digit
string is registered in `multi_der` is implicit, with the first
registered derivative's original spelling as reference
(`norm_to_orig.get(ref_norm, ref_norm)`). -/
def ruleBImplicit (anomalies : List Str) (imp : ImpMap) : ImpMap :=
  let nk := normKeys anomalies
  let nto := normToOrig anomalies
  let md := multiDer nk
  nk.foldl
    (fun imp2 an =>
      if (lit "+").isPrefixOf an || (lit "-").isPrefixOf an then
        let num := digitsOf an
        match lookupBy md num with
        | some (refNorm :: _) =>
          let ref := (lookupBy nto refNorm).getD refNorm
          imInsert imp2 an (lit "Gain/perte implicite", ref)
        | _ => imp2
      else imp2)
    imp

/-- Model of `detect_implicit_anomalies`: rule A entries first, then rule
B entries (Python fills the same dict in that order). -/
def detect_implicit_anomalies (anomalies : List Str) : ImpMap :=
  ruleBImplicit anomalies (ruleAImplicit anomalies)

/-! ### Scoring engine -/

/-- One row of the result `DataFrame`.  The synthetic total row stores
`""` in the `Occurrences` column, modelled as `none`. -/
structure Row where
  anomalie : Str
  type : Str
  explication : Str
  occurrences : Option Nat
  clones : Str
  scoreJ : Nat
  scoreI : Nat
deriving DecidableEq

/-- Model of `Counter(l)`: the distinct elements in first-occurrence
order (a Python dict iterates in key-insertion order), each with its
number of occurrences in `l`. -/
def counter (l : List Str) : List (Str × Nat) :=
  (dedupFirst l).map (fun k => (k, l.count k))

/-- Model of `re.match(r"^\+\d+c$", norm)`. -/
def constitutionalShape (norm : Str) : Bool :=
  match dropFinalNl norm with
  | '+' :: rest =>
    (match rest.span (fun c => c.isDigit) with
     | ([], _) => false
     | (_, r1) => r1 == ['c'])
  | _ => false

/-- The body of the scoring loop of `calcul_scores` for one entry
`(anom, cnt)` of the counter, producing its score row.  The two
fall-through classification blocks (for `+`/`-` tokens and for all
others) are kept duplicated exactly as in the source.  The lookups of
`norm_counts[norm]` cannot fail (`norm` is the normalization of a counted
anomaly), so they are totalised with a default that is never used. -/
def mkRow (clone_map : CloneMap) (imp : ImpMap) (normCounts : List (Str × Nat))
    (p : Str × Nat) : Row :=
  let anom := p.1
  let cnt := p.2
  let norm := normalize_anomaly anom
  let cntNorm := (lookupBy normCounts norm).getD 0
  let si : Nat × Str :=
    if constitutionalShape norm then
      (0, lit "Anomalie constitutionnelle (0 point)")
    else
      match lookupBy imp norm with
      | some rr =>
        (0, rr.1 ++ lit " (" ++ rr.2 ++ lit ") (0 point)")
      | none =>
        if (lit "+").isPrefixOf norm || (lit "-").isPrefixOf norm then
          if is_single_chr_deseq norm cntNorm then
            (2, lit "Déséquilibre unichromosomique (2 points)")
          else if is_complex_multichr_deseq norm then
            (2, lit "Déséquilibre multichromosomique complexe (2 points)")
          else if is_unbalanced_translocation norm then
            (2, lit "Translocation déséquilibrée (2 points)")
          else (1, lit "Anomalie standard (1 point)")
        else if (lit "dic").isPrefixOf norm then
          (2, lit "Chromosome dicentrique (2 points)")
        else
          if is_single_chr_deseq norm cntNorm then
            (2, lit "Déséquilibre unichromosomique (2 points)")
          else if is_complex_multichr_deseq norm then
            (2, lit "Déséquilibre multichromosomique complexe (2 points)")
          else if is_unbalanced_translocation norm then
            (2, lit "Translocation déséquilibrée (2 points)")
          else (1, lit "Anomalie standard (1 point)")
  { anomalie := anom,
    type := type_anomalie norm,
    explication := si.2,
    occurrences := some cnt,
    clones := List.intercalate (lit ", ") ((lookupBy clone_map anom).getD []),
    scoreJ := 1,
    scoreI := si.1 }

/-- Model of `calcul_scores`: one row per counter entry, the two totals
accumulated over the loop (Jondreville is 1 per row), and the synthetic
trailing total row; returns the rows and the ISCN total. -/
def calcul_scores (anomalies : List Str) (clone_map : CloneMap) :
    List Row × Nat :=
  let counts := counter anomalies
  let nCounts := counter (anomalies.map normalize_anomaly)
  let imp := detect_implicit_anomalies anomalies
  let rows := counts.map (mkRow clone_map imp nCounts)
  let totalJ := (rows.map (fun r => r.scoreJ)).sum
  let totalI := (rows.map (fun r => r.scoreI)).sum
  (rows ++ [{ anomalie := lit "TOTAL", type := [], explication := [],
              occurrences := none, clones := [],
              scoreJ := totalJ, scoreI := totalI }],
   totalI)

/-! ### Entry point -/

/-- The body of the `try` block of `analyser_formule`, `Except`-typed to
mirror the exception channel the `try` guards.  Every step of the
embedding is a total function — the only partial operations of the source
(the ploidy block) are caught inside `cloneStep` — so the body never
produces an error. -/
def analyserBody (formule : Str) : Except Str (List Row × Nat) :=
  let r := parse_caryotype formule
  Except.ok (calcul_scores r.1 r.2)

/-- Model of `analyser_formule`: the result rows, the ISCN total and the
error message of the `except` branch. -/
def analyser_formule (formule : Str) : Option (List Row) × Nat × Option Str :=
  match analyserBody formule with
  | Except.ok r => (some r.1, r.2, none)
  | Except.error e =>
    (none, 0, some (lit "Erreur lors de l'analyse de la formule: " ++ e))

/-- The score rows of a formula (the analysis never fails, so the default
is never used). -/
def analyseRows (formule : Str) : List Row :=
  ((analyser_formule formule).1).getD []

/-- The implicit-suppression example formula of the specification. -/
def derAddFormula : Str :=
  lit "46,XY,der(9)t(9;22)(q34;q11),add(9)(q34)/46,XY,der(9)t(9;22)(q34;q11)[cp5]"

/-- A formula with one raw anomaly repeated inside a clone and a second
raw spelling that normalizes to the same anomaly. -/
def rawGroupFormula : Str := lit "46,XX,+8,+8/46,XX,?+8"

/-- Property of an emitted anomaly token: it is a ploidy pseudo-anomaly,
or the dot-trim of a comma field that is nonempty after whitespace
stripping. -/
def okTok (an : Str) : Prop :=
  an = lit "Tetraploidy" ∨ an = lit "Triploidy" ∨
    ∃ p : Str, pyStrip p ≠ [] ∧ an = stripDots (pyStrip p)

/-- Invariant of the `pl` binding across the clone loop. -/
def okPl (pl : Option Str) : Prop :=
  ∀ p, pl = some p → p = lit "Tetraploidy" ∨ p = lit "Triploidy"

/-! ### Helper lemmas -/

lemma mkRow_scoreJ (cm : CloneMap) (imp : ImpMap) (nc : List (Str × Nat))
    (p : Str × Nat) : (mkRow cm imp nc p).scoreJ = 1 := rfl

lemma mkRow_anomalie (cm : CloneMap) (imp : ImpMap) (nc : List (Str × Nat))
    (p : Str × Nat) : (mkRow cm imp nc p).anomalie = p.1 := rfl

lemma mkRow_occurrences (cm : CloneMap) (imp : ImpMap) (nc : List (Str × Nat))
    (p : Str × Nat) : (mkRow cm imp nc p).occurrences = some p.2 := rfl

lemma sum_scoreJ (cm : CloneMap) (imp : ImpMap) (nc : List (Str × Nat)) :
    ∀ l : List (Str × Nat),
      ((l.map (mkRow cm imp nc)).map (fun r => r.scoreJ)).sum = l.length := by
  intro l
  induction l with
  | nil => rfl
  | cons p t ih =>
    simp only [List.map_cons, List.sum_cons, mkRow_scoreJ, ih, List.length_cons]
    omega

lemma getLast?_app {α : Type} (a : α) : ∀ l : List α, (l ++ [a]).getLast? = some a := by
  intro l
  induction l with
  | nil => rfl
  | cons x xs ih =>
    rw [List.cons_append, List.getLast?_cons, ih]
    rfl

lemma dropLast_app {α : Type} (a : α) : ∀ l : List α, (l ++ [a]).dropLast = l := by
  intro l
  induction l with
  | nil => rfl
  | cons x xs ih =>
    cases xs with
    | nil => rfl
    | cons y ys =>
      show (x :: y :: (ys ++ [a])).dropLast = x :: y :: ys
      rw [List.dropLast_cons₂]
      rw [List.cons_append] at ih
      rw [ih]

lemma dedupFirst_aux_nodup :
    ∀ (l acc : List Str), acc.Nodup →
      (l.foldl (fun acc x => if x ∈ acc then acc else acc ++ [x]) acc).Nodup := by
  intro l
  induction l with
  | nil => intro acc h; simpa using h
  | cons x xs ih =>
    intro acc h
    simp only [List.foldl_cons]
    by_cases hx : x ∈ acc
    · simpa [hx] using ih acc h
    · refine ih _ ?_
      simp only [hx, if_false]
      exact (List.nodup_append).2 ⟨h, List.nodup_singleton x,
        by intro a ha hb; simp at hb; subst hb; exact hx ha⟩

lemma dedupFirst_nodup (l : List Str) : (dedupFirst l).Nodup :=
  dedupFirst_aux_nodup l [] List.nodup_nil

lemma gain_ne (x : Str) :
    lit "Gain chr" ++ x ≠ lit "Multichromosomique déséquilibrée" := by
  intro h
  rw [show lit "Gain chr" = 'G' :: lit "ain chr" from rfl,
      show lit "Multichromosomique déséquilibrée" =
        'M' :: lit "ultichromosomique déséquilibrée" from rfl,
      List.cons_append] at h
  exact absurd (List.head_eq_of_cons_eq h) (by decide)

lemma perte_ne (x : Str) :
    lit "Perte chr" ++ x ≠ lit "Multichromosomique déséquilibrée" := by
  intro h
  rw [show lit "Perte chr" = 'P' :: lit "erte chr" from rfl,
      show lit "Multichromosomique déséquilibrée" =
        'M' :: lit "ultichromosomique déséquilibrée" from rfl,
      List.cons_append] at h
  exact absurd (List.head_eq_of_cons_eq h) (by decide)

/-! ### Claim theorems (concrete inputs) -/

/-- Claim C1, counterexample: on the implicit-suppression example formula
the single score row of the repeated derivative
`der(9)t(9;22)(q34;q11)` carries ISCN score 2 (and Jondreville score 1);
no row for it is scored 0 under ISCN, contrary to the claim. -/
theorem implicit_suppression_counterexample :
    ((analyseRows derAddFormula).filter
        (fun r => r.anomalie == lit "der(9)t(9;22)(q34;q11)")).map
      (fun r => (r.scoreJ, r.scoreI)) = [(1, 2)] ∧
    ¬ ∃ r ∈ analyseRows derAddFormula,
        r.anomalie = lit "der(9)t(9;22)(q34;q11)" ∧ r.scoreI = 0 := by decide

/-- Claim C1, amended: on that formula the implicit detector finds
nothing (no member of the derivative's translocation group contains
`add`/`del`/`dup` — the standalone `add(9)(q34)` token never joins the
group), and the derivative's row is scored 2 under ISCN 2024 as a complex
multichromosomal imbalance while Jondreville 2020 scores it 1. -/
theorem implicit_suppression_actual :
    detect_implicit_anomalies (parse_caryotype derAddFormula).1 = [] ∧
    (analyseRows derAddFormula).map
        (fun r => (r.anomalie, r.explication, r.scoreJ, r.scoreI)) =
      [(lit "der(9)t(9;22)(q34;q11)",
        lit "Déséquilibre multichromosomique complexe (2 points)", 1, 2),
       (lit "add(9)(q34)", lit "Anomalie standard (1 point)", 1, 1),
       (lit "TOTAL", [], 2, 3)] := by decide

/-- Claim C2: ploidy 92 alone emits exactly one `Tetraploidy`, 69 one
`Triploidy`, 46 none, and 47 alone none (the unbound-`pl` NameError is
caught) — but after a tetraploid clone, a later ploidy-47 clone re-emits
the stale `Tetraploidy` binding, so the behaviour is not independent of
earlier clones. -/
theorem ploidy_stale_binding_eval :
    parse_caryotype (lit "92,XXYY/47,XX") =
      ([lit "Tetraploidy", lit "Tetraploidy"],
       [(lit "Tetraploidy", [lit "clone1", lit "clone2"])]) ∧
    parse_caryotype (lit "47,XX") = ([], []) ∧
    parse_caryotype (lit "92,XXYY") =
      ([lit "Tetraploidy"], [(lit "Tetraploidy", [lit "clone1"])]) ∧
    parse_caryotype (lit "69,XXY") =
      ([lit "Triploidy"], [(lit "Triploidy", [lit "clone1"])]) ∧
    parse_caryotype (lit "46,XX") = ([], []) :=
  ⟨by decide, by decide, by decide, by decide, by decide⟩

/-- Claim C3, counterexample: `+8` and `?+8` normalize identically yet
produce two separate score rows, and the `+8` row reports 2 occurrences
although `+8` appears in a single clone (twice). -/
theorem raw_grouping_counterexample :
    (analyseRows rawGroupFormula).map (fun r => (r.anomalie, r.occurrences)) =
      [(lit "+8", some 2), (lit "?+8", some 1), (lit "TOTAL", none)] ∧
    lookupBy (parse_caryotype rawGroupFormula).2 (lit "+8") =
      some [lit "clone1", lit "clone1"] ∧
    normalize_anomaly (lit "?+8") = normalize_anomaly (lit "+8") := by decide

/-- Claim C4, counterexample: the resolver does return the category of
priority rule 19 — `dic(9)(q11)` is classified as a dicentric
chromosome, because no earlier rule matches it. -/
theorem resolver_rule19_counterexample :
    type_anomalie (lit "dic(9)(q11)") = lit "Chromosome dicentrique" := by decide

/-- Claim C4, amended: rules 19–21 are all reachable — a single-chromosome
`dic`/`idic`/`ider` token without a translocation falls through every
earlier rule and receives the corresponding category. -/
theorem resolver_rules_19_21_reachable :
    type_anomalie (lit "dic(9)(q11)") = lit "Chromosome dicentrique" ∧
    type_anomalie (lit "idic(9)(q11)") = lit "Isodicentric chromosome" ∧
    type_anomalie (lit "ider(9)(q10)") = lit "Isoderivative chromosome" := by decide

/-- Claim C5, counterexample: the clone field `.` passes the emptiness
filter (it is nonempty before dot-trimming) and is emitted as an empty
anomaly token. -/
theorem empty_token_counterexample :
    (parse_caryotype (lit "46,XX,.")).1 = [([] : Str)] ∧
    ([] : Str) ∈ (parse_caryotype (lit "46,XX,.")).1 := by decide

/-- Claim C6: `t(9;22)(q34;q11)` analysed alone is a balanced
translocation worth 1 ISCN point; `der(9)t(9;22)(q34;q11)` analysed
alone falls in the multichromosomal-unbalanced category and is worth 2
ISCN points. -/
theorem balanced_vs_unbalanced_scores :
    (analyseRows (lit "46,XY,t(9;22)(q34;q11)")).map
        (fun r => (r.anomalie, r.type, r.scoreI)) =
      [(lit "t(9;22)(q34;q11)", lit "Translocation équilibrée", 1),
       (lit "TOTAL", [], 1)] ∧
    (analyseRows (lit "46,XY,der(9)t(9;22)(q34;q11)")).map
        (fun r => (r.anomalie, r.type, r.scoreI)) =
      [(lit "der(9)t(9;22)(q34;q11)", lit "Multichromosomique déséquilibrée", 2),
       (lit "TOTAL", [], 2)] := by decide

/-- Claim C10, counterexample: `der(X)t(9;22)(q34;q11)` has a non-digit
designator in a parenthesized chromosome list, yet the extractor returns
`{9, 22}` (from the all-digit `t(9;22)` list), the token is classified
multichromosomal unbalanced, and it receives 2 points through the complex
multichromosomal-imbalance rule. -/
theorem extractor_nondigit_counterexample :
    get_chromosomes (lit "der(X)t(9;22)(q34;q11)") = [lit "9", lit "22"] ∧
    is_complex_multichr_deseq (lit "der(X)t(9;22)(q34;q11)") = true ∧
    type_anomalie (lit "der(X)t(9;22)(q34;q11)") =
      lit "Multichromosomique déséquilibrée" ∧
    (analyseRows (lit "46,XY,der(X)t(9;22)(q34;q11)")).map
        (fun r => (r.explication, r.scoreI)) =
      [(lit "Déséquilibre multichromosomique complexe (2 points)", 2),
       ([], 2)] := by decide

/-! ### Supporting lemmas for the general theorems -/

lemma ite_eq_cases {c : Prop} [Decidable c] {α : Type} {a b m : α}
    (h : (if c then a else b) = m) : (c ∧ a = m) ∨ (¬c ∧ b = m) := by
  by_cases hc : c
  · rw [if_pos hc] at h; exact Or.inl ⟨hc, h⟩
  · rw [if_neg hc] at h; exact Or.inr ⟨hc, h⟩

lemma analyseRows_eq (formule : Str) :
    analyseRows formule =
      (calcul_scores (parse_caryotype formule).1 (parse_caryotype formule).2).1 := rfl

lemma calcul_scores_totalJ (a : List Str) (m : CloneMap) :
    ((calcul_scores a m).1).getLast?.map (fun r => r.scoreJ) =
      some (((calcul_scores a m).1).length - 1) := by
  simp only [calcul_scores]
  rw [getLast?_app]
  simp [List.length_append, List.length_map]
  rw [← List.map_map]
  exact sum_scoreJ _ _ _ _

lemma cloneParts_tok {clone an : Str} (h : an ∈ cloneParts clone) :
    ∃ p : Str, pyStrip p ≠ [] ∧ an = stripDots (pyStrip p) := by
  simp only [cloneParts, List.mem_map] at h
  obtain ⟨p, hp, rfl⟩ := h
  refine ⟨p, ?_, rfl⟩
  have hc := (List.mem_filter.mp hp).2
  intro hnil
  rw [hnil] at hc
  simp at hc

lemma ploidyBlock_ok_cases (parts : List Str) (pl : Option Str)
    (pl' : Option Str) (em : Option Str)
    (hok : ploidyBlock parts pl = Except.ok (pl', em)) :
    (pl' = pl ∧ em = none) ∨
    (pl' = some (lit "Tetraploidy") ∧ em = some (lit "Tetraploidy")) ∨
    (pl' = some (lit "Triploidy") ∧ em = some (lit "Triploidy")) ∨
    (pl' = pl ∧ ∃ p, pl = some p ∧ em = some p) := by
  cases parts with
  | nil => simp [ploidyBlock] at hok
  | cons p0 ps =>
    simp only [ploidyBlock] at hok
    by_cases h1 : (digitsOf p0).isEmpty
    · simp [h1] at hok
    · rw [if_neg (by simp [h1])] at hok
      by_cases h2 : (natOfDigits (digitsOf p0) == 46) = true
      · rw [if_pos h2] at hok
        cases hok
        exact Or.inl ⟨rfl, rfl⟩
      · rw [if_neg h2] at hok
        by_cases h3 : (natOfDigits (digitsOf p0) == 92) = true
        · rw [if_pos h3] at hok
          cases hok
          exact Or.inr (Or.inl ⟨rfl, rfl⟩)
        · rw [if_neg h3] at hok
          by_cases h4 : (natOfDigits (digitsOf p0) == 69) = true
          · rw [if_pos h4] at hok
            cases hok
            exact Or.inr (Or.inr (Or.inl ⟨rfl, rfl⟩))
          · rw [if_neg h4] at hok
            cases pl with
            | none => simp at hok
            | some p =>
              cases hok
              exact Or.inr (Or.inr (Or.inr ⟨rfl, p, rfl, rfl⟩))

lemma cloneStep_inv (st : PState) (idx : Nat) (clone : Str)
    (hpl : okPl st.pl) (hans : ∀ an ∈ st.anomalies, okTok an) :
    okPl (cloneStep st idx clone).pl ∧
      ∀ an ∈ (cloneStep st idx clone).anomalies, okTok an := by
  unfold cloneStep
  cases hres : ploidyBlock (cloneParts clone) st.pl with
  | error e =>
    simp only [hres]
    refine ⟨hpl, ?_⟩
    intro an han
    rcases List.mem_append.mp han with h | h
    · exact hans an h
    · exact Or.inr (Or.inr (cloneParts_tok (List.drop_subset 2 _ h)))
  | ok pr =>
    obtain ⟨pl', em⟩ := pr
    have hcases := ploidyBlock_ok_cases _ _ _ _ hres
    cases em with
    | none =>
      simp only [hres]
      have hpl' : okPl pl' := by
        rcases hcases with ⟨h, _⟩ | ⟨_, h⟩ | ⟨_, h⟩ | ⟨h, _⟩
        · rw [h]; exact hpl
        · cases h
        · cases h
        · rw [h]; exact hpl
      refine ⟨hpl', ?_⟩
      intro an han
      rcases List.mem_append.mp han with h | h
      · exact hans an h
      · exact Or.inr (Or.inr (cloneParts_tok (List.drop_subset 2 _ h)))
    | some a =>
      simp only [hres]
      have hpl' : okPl pl' := by
        rcases hcases with ⟨_, h⟩ | ⟨h, _⟩ | ⟨h, _⟩ | ⟨h, _⟩
        · cases h
        · rw [h]; intro q hq; cases hq; exact Or.inl rfl
        · rw [h]; intro q hq; cases hq; exact Or.inr rfl
        · rw [h]; exact hpl
      have ha : okTok a := by
        rcases hcases with ⟨_, h⟩ | ⟨_, h⟩ | ⟨_, h⟩ | ⟨_, p, hp, h⟩
        · cases h
        · cases h; exact Or.inl rfl
        · cases h; exact Or.inr (Or.inl rfl)
        · have hap := Option.some.inj h
          subst hap
          rcases hpl a hp with h' | h'
          · exact Or.inl h'
          · exact Or.inr (Or.inl h')
      refine ⟨hpl', ?_⟩
      intro an han
      rcases List.mem_append.mp han with h | h
      · rcases List.mem_append.mp h with h' | h'
        · exact hans an h'
        · rw [List.mem_singleton.mp h']; exact ha
      · exact Or.inr (Or.inr (cloneParts_tok (List.drop_subset 2 _ h)))

lemma parseLoop_inv : ∀ (clones : List Str) (idx : Nat) (st : PState),
    okPl st.pl → (∀ an ∈ st.anomalies, okTok an) →
    ∀ an ∈ (parseLoop clones idx st).anomalies, okTok an := by
  intro clones
  induction clones with
  | nil => intro idx st _ h2 an han; exact h2 an han
  | cons c cs ih =>
    intro idx st h1 h2
    have h3 := cloneStep_inv st idx c h1 h2
    exact ih (idx + 1) (cloneStep st idx c) h3.1 h3.2

/-! ### Claim theorems (general statements) -/

/-- Claim C3, amended: the score rows before the trailing total row are
exactly one per distinct raw anomaly string, in first-occurrence order and
without duplicates, and each reported occurrence count is the number of
formula-wide positions of that raw string in the flat anomaly list —
grouping is by raw spelling, not by normalized form, and counting is by
position, not by clone. -/
theorem rows_raw_grouping (formule : Str) :
    (analyseRows formule).dropLast.map (fun r => (r.anomalie, r.occurrences)) =
      (dedupFirst (parse_caryotype formule).1).map
        (fun k => (k, some (((parse_caryotype formule).1).count k))) ∧
    (dedupFirst (parse_caryotype formule).1).Nodup := by
  refine ⟨?_, dedupFirst_nodup _⟩
  rw [analyseRows_eq]
  simp only [calcul_scores]
  rw [dropLast_app]
  simp [List.map_map, counter, Function.comp, mkRow_anomalie, mkRow_occurrences]

/-- Claim C7: the Jondreville total stored in the synthetic trailing
total row always equals the number of score rows excluding that total
row. -/
theorem total_j_eq_rowcount (formule : Str) :
    (analyseRows formule).getLast?.map (fun r => r.scoreJ) =
      some ((analyseRows formule).length - 1) := by
  rw [analyseRows_eq]
  exact calcul_scores_totalJ _ _

/-- Claim C8: the analysis boundary never lets a fault escape — for every
input string it returns either a present result with no error, or no
result, total 0 and an error message.  (The embedding's `analyserBody`
carries the exception channel of the `try` block; every sub-step is
total, so the first branch is the one taken.) -/
theorem analyser_never_raises (formule : Str) :
    ((analyser_formule formule).1.isSome = true ∧
      (analyser_formule formule).2.2 = none) ∨
    ((analyser_formule formule).1 = none ∧ (analyser_formule formule).2.1 = 0 ∧
      (analyser_formule formule).2.2.isSome = true) :=
  Or.inl ⟨rfl, rfl⟩

/-- Claim C9: for every input string the error component is `none` and a
result is present — the catch-all branch of `analyser_formule` is
unreachable, because the only raisable steps (the ploidy block, whose
`Except` errors include the unbound-`pl` NameError) are caught inside the
tokenizer's per-clone pattern match and everything else is total. -/
theorem analyser_error_none (formule : Str) :
    (analyser_formule formule).2.2 = none ∧
      (analyser_formule formule).1 = some (analyseRows formule) :=
  ⟨rfl, rfl⟩

/-- Claim C5, amended: every token the tokenizer emits is either a ploidy
pseudo-anomaly or the dot-trim of a comma field that was nonempty after
whitespace stripping; the emptiness filter runs before dot-trimming, so
an all-dots field (such as `.`) still yields an empty token. -/
theorem tokens_from_nonempty_pieces (formule : Str) :
    ∀ an ∈ (parse_caryotype formule).1,
      an = lit "Tetraploidy" ∨ an = lit "Triploidy" ∨
      ∃ p : Str, pyStrip p ≠ [] ∧ an = stripDots (pyStrip p) := by
  intro an han
  have h0 : okPl (none : Option Str) := fun p hp => by cases hp
  have h1 : ∀ a ∈ ([] : List Str), okTok a := by intro a ha; cases ha
  exact parseLoop_inv ((splitOnCh '/' (removeWhitespace formule)).map removeBrackets)
    1 { pl := none, anomalies := [], cloneMap := [] } h0 h1 an han

/-- Witness for the amended claim C5, at the formula `46,XX,+8` and its
emitted token `+8`. -/
theorem tokens_from_nonempty_pieces_witness :
    lit "+8" ∈ (parse_caryotype (lit "46,XX,+8")).1 ∧
    (lit "+8" = lit "Tetraploidy" ∨ lit "+8" = lit "Triploidy" ∨
      ∃ p : Str, pyStrip p ≠ [] ∧ lit "+8" = stripDots (pyStrip p)) :=
  ⟨by decide, tokens_from_nonempty_pieces (lit "46,XX,+8") (lit "+8") (by decide)⟩

/-- Claim C10, amended: whenever the chromosome extractor finds no
number in a token — as for `t(X;1)(p22;q21)` and
`der(X)t(X;8)(p11;q22)`, where every parenthesized list starts with a
sex-chromosome designator — the token is not a complex multichromosomal
imbalance and the resolver never classifies it as multichromosomal
unbalanced.  (When another list of the same token is all digits, the set
is nonempty and the claim's conclusion can fail, see the
counterexample.) -/
theorem extractor_empty_not_complex (anom : Str)
    (h : get_chromosomes anom = []) :
    is_complex_multichr_deseq anom = false ∧
    type_anomalie anom ≠ lit "Multichromosomique déséquilibrée" ∧
    get_chromosomes (lit "t(X;1)(p22;q21)") = [] ∧
    get_chromosomes (lit "der(X)t(X;8)(p11;q22)") = [] := by
  have hc : is_complex_multichr_deseq anom = false := by
    simp [is_complex_multichr_deseq, h]
  refine ⟨hc, ?_, by decide, by decide⟩
  intro heq
  unfold type_anomalie at heq
  rw [hc] at heq
  rw [if_neg (show ¬(false = true) by decide)] at heq
  rcases ite_eq_cases heq with ⟨-, heq⟩ | ⟨-, heq⟩
  · exact absurd heq (by decide)
  rcases ite_eq_cases heq with ⟨-, heq⟩ | ⟨-, heq⟩
  · exact absurd heq (by decide)
  rcases ite_eq_cases heq with ⟨-, heq⟩ | ⟨-, heq⟩
  · exact absurd heq (by decide)
  rcases ite_eq_cases heq with ⟨-, heq⟩ | ⟨-, heq⟩
  · exact absurd heq (by decide)
  rcases ite_eq_cases heq with ⟨-, heq⟩ | ⟨-, heq⟩
  · exact absurd heq (by decide)
  rcases ite_eq_cases heq with ⟨-, heq⟩ | ⟨-, heq⟩
  · exact absurd heq (by decide)
  rcases ite_eq_cases heq with ⟨-, heq⟩ | ⟨-, heq⟩
  · exact absurd heq (by decide)
  rcases ite_eq_cases heq with ⟨-, heq⟩ | ⟨-, heq⟩
  · exact absurd heq (by decide)
  rcases ite_eq_cases heq with ⟨-, heq⟩ | ⟨-, heq⟩
  · exact absurd heq (by decide)
  rcases ite_eq_cases heq with ⟨-, heq⟩ | ⟨-, heq⟩
  · exact absurd heq (by decide)
  rcases ite_eq_cases heq with ⟨-, heq⟩ | ⟨-, heq⟩
  · exact absurd heq (by decide)
  rcases ite_eq_cases heq with ⟨-, heq⟩ | ⟨-, heq⟩
  · exact absurd heq (by decide)
  rcases ite_eq_cases heq with ⟨-, heq⟩ | ⟨-, heq⟩
  · exact gain_ne _ heq
  rcases ite_eq_cases heq with ⟨-, heq⟩ | ⟨-, heq⟩
  · exact perte_ne _ heq
  rcases ite_eq_cases heq with ⟨-, heq⟩ | ⟨-, heq⟩
  · exact absurd heq (by decide)
  rcases ite_eq_cases heq with ⟨-, heq⟩ | ⟨-, heq⟩
  · exact absurd heq (by decide)
  rcases ite_eq_cases heq with ⟨-, heq⟩ | ⟨-, heq⟩
  · exact absurd heq (by decide)
  rcases ite_eq_cases heq with ⟨-, heq⟩ | ⟨-, heq⟩
  · exact absurd heq (by decide)
  rcases ite_eq_cases heq with ⟨-, heq⟩ | ⟨-, heq⟩
  · exact absurd heq (by decide)
  rcases ite_eq_cases heq with ⟨-, heq⟩ | ⟨-, heq⟩
  · exact absurd heq (by decide)
  rcases ite_eq_cases heq with ⟨-, heq⟩ | ⟨-, heq⟩
  · exact absurd heq (by decide)
  exact absurd heq (by decide)

/-- Witness for the amended claim C10, at the token `t(X;1)(p22;q21)`. -/
theorem extractor_empty_not_complex_witness :
    get_chromosomes (lit "t(X;1)(p22;q21)") = [] ∧
    (is_complex_multichr_deseq (lit "t(X;1)(p22;q21)") = false ∧
     type_anomalie (lit "t(X;1)(p22;q21)") ≠ lit "Multichromosomique déséquilibrée" ∧
     get_chromosomes (lit "t(X;1)(p22;q21)") = [] ∧
     get_chromosomes (lit "der(X)t(X;8)(p11;q22)") = []) :=
  ⟨by decide, extractor_empty_not_complex (lit "t(X;1)(p22;q21)") (by decide)⟩

end Karyo

